import Mathlib

/-!
Shallow embedding of the `bnuuy` terminal-emulator core
(`src/screen_grid/src/lib.rs`, `src/app/src/terminal.rs`,
`src/app/src/renderer.rs`), together with theorems settling the
specification claims about it.

Rust `usize` arithmetic appears only through `saturating_sub`
(embedded as truncated `Nat` subtraction, which coincides) and small
additions that cannot overflow at the modelled inputs.  `VecDeque<Row>`
is embedded as `List Row` with the front of the deque at the head of
the list.
-/

/-- 24-bit RGB color (`Rgb` in `screen_grid`). -/
structure Rgb where
  r : Nat
  g : Nat
  b : Nat
deriving DecidableEq, Repr

/-- Style flag set (`CellFlags` bitflags in `screen_grid`), one Bool per bit. -/
structure CellFlags where
  bold : Bool
  italic : Bool
  underline : Bool
  inverse : Bool
  faint : Bool
  undercurl : Bool
deriving DecidableEq, Repr

/-- The empty flag set (`CellFlags::empty()`). -/
def CellFlags.emptyFlags : CellFlags :=
  ⟨false, false, false, false, false, false⟩

/-- One printable cell on the screen (`Cell` in `screen_grid`). -/
structure Cell where
  ch : Char
  fg : Rgb
  bg : Rgb
  flags : CellFlags
  link_id : Option Nat
deriving DecidableEq, Repr

/-- Default cell: space with the hard-coded default palette
(`impl Default for Cell`). -/
def Cell.defaultCell : Cell :=
  { ch := ' '
    fg := ⟨0xC0, 0xC0, 0xC0⟩
    bg := ⟨0x00, 0x00, 0x00⟩
    flags := CellFlags.emptyFlags
    link_id := none }

/-- A screen row (`Row` in `screen_grid`). -/
structure Row where
  cells : List Cell
  is_dirty : Bool
deriving DecidableEq, Repr

/-- The grid state (`ScreenGrid` in `screen_grid`).  `lines` is the
`VecDeque<Row>` with the deque front at the list head: the first
`lines.length - rows` entries are scrollback, the rest the viewport. -/
structure ScreenGrid where
  rows : Nat
  cols : Nat
  lines : List Row
  cur_x : Nat
  cur_y : Nat
  scrollback_capacity : Nat
  full_redraw_needed : Bool
  scroll_top : Nat
  scroll_bottom : Nat
  default_fg : Rgb
  default_bg : Rgb
  deferred_wrap : Bool
deriving DecidableEq, Repr

/-- List update at an index, mirroring mutation through
`VecDeque::get_mut(idx)`: out-of-range indices leave the list unchanged
(the Rust code pattern-matches the `Option` and does nothing on `None`). -/
def listModify (f : α → α) : Nat → List α → List α
  | _, [] => []
  | 0, a :: as => f a :: as
  | n + 1, a :: as => a :: listModify f n as

/-- Insertion at an index, mirroring `VecDeque::insert`; the source only
calls it with a clamped index `≤ len`, where this agrees with Rust. -/
def insertAt (a : α) : Nat → List α → List α
  | 0, l => a :: l
  | _ + 1, [] => [a]
  | n + 1, x :: xs => x :: insertAt a n xs

/-- Removal at an index, mirroring `VecDeque::remove` composed with the
source's `if let Some(..)` guard: out of range leaves the list unchanged. -/
def eraseAt : Nat → List α → List α
  | _, [] => []
  | 0, _ :: xs => xs
  | n + 1, x :: xs => x :: eraseAt n xs

/-- `blank_row` free function from `screen_grid`: `cols` default-colored
blank cells, born dirty. -/
def blank_row (cols : Nat) (default_fg default_bg : Rgb) : Row :=
  { cells := List.replicate cols
      { Cell.defaultCell with fg := default_fg, bg := default_bg }
    is_dirty := true }

namespace ScreenGrid

/-- `ScreenGrid::scrollback_len`: `lines.len().saturating_sub(rows)`. -/
def scrollback_len (g : ScreenGrid) : Nat :=
  g.lines.length - g.rows

/-- `ScreenGrid::visible_row`: `lines.get(scrollback_len + y)`. -/
def visible_row (g : ScreenGrid) (y : Nat) : Option Row :=
  g.lines.get? (g.scrollback_len + y)

/-- Mutation through `ScreenGrid::visible_row_mut(y)`:
apply `f` to the row at `scrollback_len + y` when it exists. -/
def modifyRow (g : ScreenGrid) (y : Nat) (f : Row → Row) : ScreenGrid :=
  { g with lines := listModify f (g.scrollback_len + y) g.lines }

/-- `ScreenGrid::get_display_row`. -/
def get_display_row (g : ScreenGrid) (y offset : Nat) : Option Row :=
  let top_visible_idx := g.lines.length - g.rows
  let requested_idx := top_visible_idx - offset
  g.lines.get? (requested_idx + y)

/-- `ScreenGrid::clear_all_dirty_flags`. -/
def clear_all_dirty_flags (g : ScreenGrid) : ScreenGrid :=
  { g with full_redraw_needed := false
           lines := g.lines.map fun r => { r with is_dirty := false } }

/-- `ScreenGrid::resize`: early-returns when both dimensions already
match; otherwise clears content and rebuilds blank.  (With `r = 0` the
Rust `rows - 1` underflows — panic in debug builds; the embedding takes
the truncated value 0 and theorems avoid that input.) -/
def resize (g : ScreenGrid) (c r : Nat) : ScreenGrid :=
  if g.cols = c ∧ g.rows = r then g
  else
    { g with
      cols := c
      rows := r
      lines := List.replicate r (blank_row c g.default_fg g.default_bg)
      cur_x := 0
      cur_y := 0
      scroll_top := 0
      scroll_bottom := r - 1
      deferred_wrap := false
      full_redraw_needed := true }

/-- `ScreenGrid::new`: builds the struct with the requested dimensions
and then calls `resize(cols, rows)` — which early-returns because the
dimensions already match, so `lines` stays empty. -/
def new (c r scrollback : Nat) (default_fg default_bg : Rgb) : ScreenGrid :=
  let g : ScreenGrid :=
    { rows := r
      cols := c
      scroll_top := 0
      scroll_bottom := r - 1
      cur_x := 0
      cur_y := 0
      lines := []
      scrollback_capacity := scrollback
      full_redraw_needed := true
      default_fg := default_fg
      default_bg := default_bg
      deferred_wrap := false }
  g.resize c r

/-- `ScreenGrid::push_scrollback`: push the row on the deque front, then
pop from the front while `lines.len() > rows + scrollback_capacity`
(each pop removes one element, so the loop drops
`len - (rows + capacity)` elements from the front). -/
def push_scrollback (g : ScreenGrid) (row : Row) : ScreenGrid :=
  let pushed := row :: g.lines
  { g with lines := pushed.drop (pushed.length - (g.rows + g.scrollback_capacity)) }

/-- The removal loop of `ScreenGrid::scroll_up`: `n` times remove the row
at `scrollback_len() + scroll_top` (recomputed each iteration),
collecting removed rows in order when `scrollback_capacity > 0`. -/
def scrollRemoveLoop (rows scroll_top cap : Nat) :
    Nat → List Row × List Row → List Row × List Row
  | 0, st => st
  | n + 1, (lines, acc) =>
    let top_idx := (lines.length - rows) + scroll_top
    if h : top_idx < lines.length then
      scrollRemoveLoop rows scroll_top cap n
        (eraseAt top_idx lines,
         if 0 < cap then acc ++ [lines.get ⟨top_idx, h⟩] else acc)
    else
      scrollRemoveLoop rows scroll_top cap n (lines, acc)

/-- The insertion loop of `ScreenGrid::scroll_up`: `n` times insert a
blank row at `min (scrollback_len() + scroll_bottom + 1) lines.len()`
(recomputed each iteration). -/
def scrollInsertLoop (rows scroll_bottom : Nat) (blank : Row) :
    Nat → List Row → List Row
  | 0, lines => lines
  | n + 1, lines =>
    let bottom_idx := (lines.length - rows) + scroll_bottom + 1
    scrollInsertLoop rows scroll_bottom blank n
      (insertAt blank (min bottom_idx lines.length) lines)

/-- `ScreenGrid::scroll_up`. -/
def scroll_up (g : ScreenGrid) (n : Nat) : ScreenGrid :=
  let scrollable_lines_in_region := (g.scroll_bottom - g.scroll_top) + 1
  let n := min n scrollable_lines_in_region
  if n = 0 then g
  else
    let removed :=
      scrollRemoveLoop g.rows g.scroll_top g.scrollback_capacity n (g.lines, [])
    let lines2 :=
      scrollInsertLoop g.rows g.scroll_bottom
        (blank_row g.cols g.default_fg g.default_bg) n removed.1
    let g2 := { g with lines := lines2 }
    let g3 := removed.2.foldl (fun acc row => acc.push_scrollback row) g2
    { g3 with full_redraw_needed := true }

/-- `ScreenGrid::line_feed`. -/
def line_feed (g : ScreenGrid) : ScreenGrid :=
  if g.deferred_wrap then { g with deferred_wrap := false }
  else if g.cur_y = g.scroll_bottom then g.scroll_up 1
  else { g with cur_y := g.cur_y + 1 }

/-- `ScreenGrid::advance_cursor`. -/
def advance_cursor (g : ScreenGrid) : ScreenGrid :=
  if g.cur_x + 1 ≥ g.cols then { g with deferred_wrap := true }
  else { g with cur_x := g.cur_x + 1 }

/-- `ScreenGrid::put_char_ex`. -/
def put_char_ex (g : ScreenGrid) (ch : Char) (fg bg : Rgb)
    (flags : CellFlags) (link_id : Option Nat) : ScreenGrid :=
  let g :=
    if g.deferred_wrap then
      { g.line_feed with cur_x := 0, deferred_wrap := false }
    else g
  let x := g.cur_x
  let g :=
    if x < g.cols then
      g.modifyRow g.cur_y fun row =>
        { cells := row.cells.set x ⟨ch, fg, bg, flags, link_id⟩
          is_dirty := true }
    else g
  g.advance_cursor

/-- `ScreenGrid::set_cursor_pos`. -/
def set_cursor_pos (g : ScreenGrid) (x y : Nat) : ScreenGrid :=
  let g := g.modifyRow g.cur_y fun r => { r with is_dirty := true }
  let g :=
    { g with
      deferred_wrap := false
      cur_x := min x (g.cols - 1)
      cur_y := min y (g.rows - 1) }
  g.modifyRow g.cur_y fun r => { r with is_dirty := true }

/-- `ScreenGrid::clear_line`. -/
def clear_line (g : ScreenGrid) : ScreenGrid :=
  let g := { g with deferred_wrap := false }
  g.modifyRow g.cur_y fun _ =>
    { blank_row g.cols g.default_fg g.default_bg with is_dirty := true }

/-- `ScreenGrid::clear_line_to_cursor`: blank columns `0..=cur_x`
(each write guarded by `x < cols`), mark the row dirty. -/
def clear_line_to_cursor (g : ScreenGrid) : ScreenGrid :=
  let g := { g with deferred_wrap := false }
  let blank : Cell :=
    { Cell.defaultCell with fg := g.default_fg, bg := g.default_bg }
  g.modifyRow g.cur_y fun row =>
    { cells :=
        (List.range (g.cur_x + 1)).foldl
          (fun cs x => if x < g.cols then cs.set x blank else cs) row.cells
      is_dirty := true }

/-- `ScreenGrid::clear_line_from_cursor`: blank columns `cur_x..cols`,
mark the row dirty. -/
def clear_line_from_cursor (g : ScreenGrid) : ScreenGrid :=
  let g := { g with deferred_wrap := false }
  let blank : Cell :=
    { Cell.defaultCell with fg := g.default_fg, bg := g.default_bg }
  g.modifyRow g.cur_y fun row =>
    { cells :=
        (List.range' g.cur_x (g.cols - g.cur_x)).foldl
          (fun cs x => cs.set x blank) row.cells
      is_dirty := true }

/-- `ScreenGrid::clear_to_cursor`: replace rows `scroll_top..cur_y` with
blank rows, then `clear_line_to_cursor`. -/
def clear_to_cursor (g : ScreenGrid) : ScreenGrid :=
  let g := { g with deferred_wrap := false }
  let g :=
    (List.range' g.scroll_top (g.cur_y - g.scroll_top)).foldl
      (fun acc y => acc.modifyRow y fun _ =>
        blank_row acc.cols acc.default_fg acc.default_bg) g
  g.clear_line_to_cursor

/-- `ScreenGrid::clear_from_cursor`: `clear_line_from_cursor`, then
replace rows `cur_y+1..=scroll_bottom` with blank rows. -/
def clear_from_cursor (g : ScreenGrid) : ScreenGrid :=
  let g := { g with deferred_wrap := false }
  let g := g.clear_line_from_cursor
  (List.range' (g.cur_y + 1) (g.scroll_bottom + 1 - (g.cur_y + 1))).foldl
    (fun acc y => acc.modifyRow y fun _ =>
      blank_row acc.cols acc.default_fg acc.default_bg) g

/-- `ScreenGrid::clear_all`. -/
def clear_all (g : ScreenGrid) : ScreenGrid :=
  let g :=
    (List.range' g.scroll_top (g.scroll_bottom + 1 - g.scroll_top)).foldl
      (fun acc y => acc.modifyRow y fun _ =>
        blank_row acc.cols acc.default_fg acc.default_bg) g
  let g := g.set_cursor_pos 0 g.scroll_top
  { g with deferred_wrap := false, full_redraw_needed := true }

/-- `ScreenGrid::insert_lines`: rotate the region `[cur_y, scroll_bottom]`
right by the clamped `n` and blank its first `n` rows. -/
def insert_lines (g : ScreenGrid) (n : Nat) : ScreenGrid :=
  let g := { g with deferred_wrap := false }
  let y := g.cur_y
  if y < g.scroll_top ∨ g.scroll_bottom < y then g
  else
    let n := min n (g.scroll_bottom - y + 1)
    if n = 0 then g
    else
      let region_start_idx := g.scrollback_len + y
      let region_end_idx := g.scrollback_len + g.scroll_bottom
      if g.lines.length ≤ region_end_idx then g
      else
        let len := region_end_idx + 1 - region_start_idx
        let region := (g.lines.drop region_start_idx).take len
        let rotated := region.drop (region.length - n) ++ region.take (region.length - n)
        let filled :=
          List.replicate n (blank_row g.cols g.default_fg g.default_bg)
            ++ rotated.drop n
        { g with
          lines := g.lines.take region_start_idx ++ filled
                     ++ g.lines.drop (region_end_idx + 1)
          full_redraw_needed := true }

/-- `ScreenGrid::delete_lines`: rotate the region `[cur_y, scroll_bottom]`
left by the clamped `n` and blank its last `n` rows. -/
def delete_lines (g : ScreenGrid) (n : Nat) : ScreenGrid :=
  let g := { g with deferred_wrap := false }
  let y := g.cur_y
  if y < g.scroll_top ∨ g.scroll_bottom < y then g
  else
    let n := min n (g.scroll_bottom - y + 1)
    if n = 0 then g
    else
      let region_start_idx := g.scrollback_len + y
      let region_end_idx := g.scrollback_len + g.scroll_bottom
      if g.lines.length ≤ region_end_idx then g
      else
        let len := region_end_idx + 1 - region_start_idx
        let region := (g.lines.drop region_start_idx).take len
        let rotated := region.drop n ++ region.take n
        let filled :=
          rotated.take (region.length - n)
            ++ List.replicate n (blank_row g.cols g.default_fg g.default_bg)
        { g with
          lines := g.lines.take region_start_idx ++ filled
                     ++ g.lines.drop (region_end_idx + 1)
          full_redraw_needed := true }

/-- `ScreenGrid::insert_chars`: `n` times, if `cur_x < cols`, insert a
blank cell at `cur_x` and truncate the row back to `cols`. -/
def insert_chars (g : ScreenGrid) (n : Nat) : ScreenGrid :=
  let g := { g with deferred_wrap := false }
  let x := g.cur_x
  let blank : Cell :=
    { Cell.defaultCell with fg := g.default_fg, bg := g.default_bg }
  g.modifyRow g.cur_y fun row =>
    { cells :=
        (List.range n).foldl
          (fun cs _ =>
            if x < g.cols then (insertAt blank x cs).take g.cols else cs)
          row.cells
      is_dirty := true }

/-- `ScreenGrid::delete_chars`: `n` times remove the cell at `cur_x` if in
range, then pad the row back to `cols` with blanks. -/
def delete_chars (g : ScreenGrid) (n : Nat) : ScreenGrid :=
  let g := { g with deferred_wrap := false }
  let x := g.cur_x
  let blank : Cell :=
    { Cell.defaultCell with fg := g.default_fg, bg := g.default_bg }
  g.modifyRow g.cur_y fun row =>
    let removed :=
      (List.range n).foldl
        (fun cs _ => if x < cs.length then eraseAt x cs else cs) row.cells
    { cells := removed ++ List.replicate (g.cols - removed.length) blank
      is_dirty := true }

end ScreenGrid

/-!
Performer layer (`src/app/src/terminal.rs`).  The CSI dispatchers below
embed the per-final-byte arms of `VtePerformer::csi_dispatch`, as
functions of the first explicit parameter value and the active grid.
-/

namespace VtePerformer

/-- CSI `A` (CUU): `cur_y = cur_y.saturating_sub(n).max(scroll_top)`,
with parameter 0 treated as 1.  No dirty marking occurs in this arm. -/
def csiCUU (p : Nat) (g : ScreenGrid) : ScreenGrid :=
  let n := if p = 0 then 1 else p
  { g with cur_y := max (g.cur_y - n) g.scroll_top }

/-- CSI `B` (CUD): `cur_y = (cur_y + n).min(scroll_bottom)`, with
parameter 0 treated as 1.  No dirty marking occurs in this arm. -/
def csiCUD (p : Nat) (g : ScreenGrid) : ScreenGrid :=
  let n := if p = 0 then 1 else p
  { g with cur_y := min (g.cur_y + n) g.scroll_bottom }

/-- CSI `C` (CUF). -/
def csiCUF (p : Nat) (g : ScreenGrid) : ScreenGrid :=
  let n := if p = 0 then 1 else p
  { g with cur_x := min (g.cur_x + n) (g.cols - 1) }

/-- CSI `D` (CUB). -/
def csiCUB (p : Nat) (g : ScreenGrid) : ScreenGrid :=
  let n := if p = 0 then 1 else p
  { g with cur_x := g.cur_x - n }

/-- CSI `J` (ED): parameter 0 clears from the cursor, 2 clears all, and
parameter 1 is an empty TODO arm in the source — the grid is untouched. -/
def csiED (p : Nat) (g : ScreenGrid) : ScreenGrid :=
  if p = 0 then g.clear_from_cursor
  else if p = 2 then g.clear_all
  else g

/-- CSI `K` (EL): parameter 0 clears the line from the cursor, 2 clears
the line, and parameter 1 is an empty TODO arm in the source. -/
def csiEL (p : Nat) (g : ScreenGrid) : ScreenGrid :=
  if p = 0 then g.clear_line_from_cursor
  else if p = 2 then g.clear_line
  else g

/-- CSI `X` (ECH): overwrite `n` cells from the cursor with a blank cell
built from the performer's current attributes; the source takes
`n = get_param(1)` with NO zero-to-one substitution. -/
def csiECH (attrs_fg attrs_bg : Rgb) (link : Option Nat) (p : Nat)
    (g : ScreenGrid) : ScreenGrid :=
  let blank : Cell := ⟨' ', attrs_fg, attrs_bg, CellFlags.emptyFlags, link⟩
  let n := p
  let x := g.cur_x
  g.modifyRow g.cur_y fun row =>
    { cells :=
        (List.range n).foldl
          (fun cs i => if x + i < cs.length then cs.set (x + i) blank else cs)
          row.cells
      is_dirty := true }

/-- CSI `@` (ICH), parameter 0 treated as 1. -/
def csiICH (p : Nat) (g : ScreenGrid) : ScreenGrid :=
  g.insert_chars (if p = 0 then 1 else p)

/-- CSI `L` (IL), parameter 0 treated as 1. -/
def csiIL (p : Nat) (g : ScreenGrid) : ScreenGrid :=
  g.insert_lines (if p = 0 then 1 else p)

/-- CSI `M` (DL), parameter 0 treated as 1. -/
def csiDL (p : Nat) (g : ScreenGrid) : ScreenGrid :=
  g.delete_lines (if p = 0 then 1 else p)

/-- CSI `P` (DCH), parameter 0 treated as 1. -/
def csiDCH (p : Nat) (g : ScreenGrid) : ScreenGrid :=
  g.delete_chars (if p = 0 then 1 else p)

/-- `VtePerformer::execute`: mark the cursor row dirty, handle the control
byte, mark the (possibly new) cursor row dirty. -/
def executeByte (g : ScreenGrid) (byte : Nat) : ScreenGrid :=
  let g := g.modifyRow g.cur_y fun r => { r with is_dirty := true }
  let g :=
    if byte = 0x0A ∨ byte = 0x84 then g.line_feed
    else if byte = 0x85 then { g.line_feed with cur_x := 0 }
    else if byte = 0x0D then { g with cur_x := 0 }
    else if byte = 0x08 then { g with cur_x := g.cur_x - 1 }
    else g
  g.modifyRow g.cur_y fun r => { r with is_dirty := true }

/-- `VtePerformer::print`: write the character with the current
attributes (fg, bg, flags) and current link id. -/
def printChar (attrs_fg attrs_bg : Rgb) (flags : CellFlags)
    (link : Option Nat) (g : ScreenGrid) (c : Char) : ScreenGrid :=
  g.put_char_ex c attrs_fg attrs_bg flags link

end VtePerformer

/-!
Instance builder (`Renderer::prepare_decorations` slow path in
`src/app/src/renderer.rs`).  Pixel metrics in the source are `f32`
(`x as f32 * self.cell_size.0`); the embedding carries the cell width
and the row's y position as naturals, which is faithful for the claims
here (they concern which cells emit instances and with what color).
-/

/-- One background quad (`BgInstance`): position and RGBA color. -/
structure BgInstance where
  pos_x : Nat
  pos_y : Nat
  color : Rgb
  alpha : Nat
deriving DecidableEq, Repr

/-- The cache-miss loop body of `prepare_decorations` for one row, from
column index `x0` on: every cell pushes one `BgInstance`, whose color is
the cell's `bg` — or the cell's `fg` when the cell is the cursor cell
(`cursor_visible && y == cur_y && x == cur_x`; the row-level part of
that condition is the `cursor_on_row` flag here). -/
def buildRowBgsFrom (cell_w y_pos : Nat) (cursor_on_row : Bool)
    (cur_x : Nat) : Nat → List Cell → List BgInstance
  | _, [] => []
  | x, cell :: rest =>
    let is_cursor := cursor_on_row && x = cur_x
    let bg_color := if is_cursor then cell.fg else cell.bg
    { pos_x := x * cell_w, pos_y := y_pos, color := bg_color, alpha := 255 }
      :: buildRowBgsFrom cell_w y_pos cursor_on_row cur_x (x + 1) rest

/-- The background instances `prepare_decorations` emits for one row on a
cache miss (`for (x, cell) in grid_row.cells.iter().enumerate()`). -/
def buildRowBgs (cell_w y_pos : Nat) (cursor_on_row : Bool) (cur_x : Nat)
    (cells : List Cell) : List BgInstance :=
  buildRowBgsFrom cell_w y_pos cursor_on_row cur_x 0 cells

/-!
Terminal state and `feed` (`src/app/src/terminal.rs`).  The byte-level
VT parse (`self.parser.advance(&mut performer, bytes)`, from the
external `vte` crate) is embedded as an arbitrary function `advance`
over exactly the state the `VtePerformer` borrows — which notably does
NOT include `is_dirty` and `scroll_offset`.
-/

/-- `ActiveScreen`. -/
inductive ActiveScreen where
  | Normal
  | Alternate
deriving DecidableEq, Repr

/-- Current SGR attributes (`Attrs`). -/
structure Attrs where
  fg : Rgb
  bg : Rgb
  flags : CellFlags
deriving DecidableEq, Repr

/-- The fields of `TerminalState` that `VtePerformer` mutably borrows in
`feed` (everything except the parser, `scroll_offset` and `is_dirty`). -/
structure PerfShared where
  normal_grid : ScreenGrid
  alternate_grid : ScreenGrid
  active_screen : ActiveScreen
  attrs : Attrs
  cursor_visible : Bool
  current_link_id : Option Nat
  links : List (Nat × String)
  next_link_id : Nat
deriving DecidableEq

/-- `TerminalState`, parameterized over the parser state type `P` of the
external `vte::Parser`. -/
structure TerminalState (P : Type) where
  shared : PerfShared
  parser : P
  scroll_offset : Nat
  is_dirty : Bool

/-- `TerminalState::feed`: return early on an empty slice; otherwise set
`is_dirty`, reset `scroll_offset` when the Normal screen is active, and
only then run the parser (`advance`) over the performer-visible state. -/
def TerminalState.feed {P : Type}
    (advance : P → PerfShared → List Nat → P × PerfShared)
    (st : TerminalState P) (bytes : List Nat) : TerminalState P :=
  if bytes.isEmpty then st
  else
    let st :=
      { st with
        is_dirty := true
        scroll_offset :=
          if st.shared.active_screen = ActiveScreen.Normal then 0
          else st.scroll_offset }
    let stepped := advance st.parser st.shared bytes
    { st with parser := stepped.1, shared := stepped.2 }

/-!
Concrete scenario helpers.  `mkGrid` is the well-formed grid state the
Rust code reaches once `resize` actually rebuilds (the state every spec
scenario starts from); `printStr`/`feedLine` drive the performer the way
`feed` does for printable ASCII and `\n`.
-/

/-- A freshly built `cols × rows` grid with the given scrollback
capacity, obtained through the source's own `resize` rebuild path. -/
def mkGrid (c r cap : Nat) (fg bg : Rgb) : ScreenGrid :=
  ScreenGrid.resize
    { rows := 0
      cols := 0
      lines := []
      cur_x := 0
      cur_y := 0
      scrollback_capacity := cap
      full_redraw_needed := true
      scroll_top := 0
      scroll_bottom := 0
      default_fg := fg
      default_bg := bg
      deferred_wrap := false }
    c r

/-- Print a string of characters through `VtePerformer::print` with the
given attributes. -/
def printStr (fg bg : Rgb) (g : ScreenGrid) (s : List Char) : ScreenGrid :=
  s.foldl (VtePerformer.printChar fg bg CellFlags.emptyFlags none) g

/-- Feed one newline-terminated line as a PTY emits it: print the
characters, then execute CR (0x0D) and LF (0x0A). -/
def feedLine (fg bg : Rgb) (g : ScreenGrid) (s : List Char) : ScreenGrid :=
  VtePerformer.executeByte
    (VtePerformer.executeByte (printStr fg bg g s) 0x0D) 0x0A

/-- Feed a list of newline-terminated lines. -/
def feedLines (fg bg : Rgb) (g : ScreenGrid) (ls : List (List Char)) : ScreenGrid :=
  ls.foldl (feedLine fg bg) g

/-- The characters of a row, in column order. -/
def rowText (r : Row) : List Char :=
  r.cells.map Cell.ch

/-!
The grid invariant of §8 of the specification: every row holds exactly
`cols` cells, the viewport is exactly `rows` rows (`rows ≤ lines.length`
with the viewport being the last `rows` entries), scrollback stays in
capacity, and the DEC margins are well-formed (`scroll_top ≤
scroll_bottom < rows`, as established by `resize` and guarded by the
DECSTBM dispatch).
-/

/-- Every row of the list has exactly `c` cells. -/
def RowsOk (c : Nat) (ls : List Row) : Prop :=
  ∀ r ∈ ls, r.cells.length = c

instance (c : Nat) (ls : List Row) : Decidable (RowsOk c ls) :=
  List.decidableBAll _ ls

/-- The grid invariant. -/
def GridInv (g : ScreenGrid) : Prop :=
  RowsOk g.cols g.lines ∧
  g.rows ≤ g.lines.length ∧
  g.lines.length ≤ g.rows + g.scrollback_capacity ∧
  g.scroll_top ≤ g.scroll_bottom ∧
  g.scroll_bottom < g.rows

instance (g : ScreenGrid) : Decidable (GridInv g) := by
  unfold GridInv; infer_instance

/-!
Concrete states used by the claim theorems below, and the predicates the
claims quantify over.  All colors are arbitrary; `termFg`/`termBg` stand
for the configured default foreground/background.
-/

/-- A nominal configured default foreground. -/
def termFg : Rgb := ⟨0xC0, 0xC0, 0xC0⟩

/-- A nominal configured default background. -/
def termBg : Rgb := ⟨30, 30, 40⟩

/-- C1 scenario: a 10×5 grid with scrollback capacity 3, fed 12
newline-terminated one-character lines `A`..`L`. -/
def c1grid : ScreenGrid :=
  feedLines termFg termBg (mkGrid 10 5 3 termFg termBg)
    [['A'], ['B'], ['C'], ['D'], ['E'], ['F'], ['G'], ['H'], ['I'], ['J'],
     ['K'], ['L']]

/-- A 4×2 grid holding `A` at (0,0) with the cursor at (1,0). -/
def gA4 : ScreenGrid := printStr termFg termBg (mkGrid 4 2 0 termFg termBg) ['A']

/-- A 4×2 grid after printing exactly `cols` characters `ABCD`:
the deferred-wrap latch is set. -/
def gABCD : ScreenGrid :=
  printStr termFg termBg (mkGrid 4 2 0 termFg termBg) ['A', 'B', 'C', 'D']

/-- `gABCD` after executing CR (0x0D). -/
def gABCDcr : ScreenGrid := VtePerformer.executeByte gABCD 0x0D

/-- `gABCDcr` after printing one more character `X`. -/
def gABCDcrX : ScreenGrid := printStr termFg termBg gABCDcr ['X']

/-- `gABCD` after printing one more character `E` (the wrap commit). -/
def gABCDE : ScreenGrid := printStr termFg termBg gABCD ['E']

/-- C5 scenario: a 2×3 grid with all dirty flags cleared. -/
def c5grid : ScreenGrid := (mkGrid 2 3 0 termFg termBg).clear_all_dirty_flags

/-- `c5grid` after dispatching CSI B (CUD) with parameter 1. -/
def c5cud : ScreenGrid := VtePerformer.csiCUD 1 c5grid

/-- C7 scenario: a 10×5 grid holding `A` at (0,0). -/
def c7grid : ScreenGrid :=
  printStr termFg termBg (mkGrid 10 5 3 termFg termBg) ['A']

/-- `c7grid` after `resize(0, 5)`. -/
def c7resized : ScreenGrid := c7grid.resize 0 5

/-- C8 scenario: a 4×2 grid holding `A` at (0,0), cursor repositioned
to (0,0). -/
def c8grid : ScreenGrid := gA4.set_cursor_pos 0 0

/-- C9 scenario: one cell whose background equals the configured
default background. -/
def c9cell : Cell := { Cell.defaultCell with fg := termFg, bg := termBg }

/-- The conjunction C6 asserts of one grid state: each listed public
operation preserves `GridInv`, and `GridInv` yields the three spec
invariants (viewport exactly `rows` rows, every visible row exactly
`cols` cells, scrollback within capacity). -/
def GridOpsOk (g : ScreenGrid) (ch : Char) (cfg cbg : Rgb)
    (fl : CellFlags) (lk : Option Nat) (n x y : Nat) : Prop :=
  (GridInv (g.put_char_ex ch cfg cbg fl lk) ∧
   GridInv (g.insert_chars n) ∧
   GridInv (g.delete_chars n) ∧
   GridInv (g.insert_lines n) ∧
   GridInv (g.delete_lines n) ∧
   GridInv g.clear_line ∧
   GridInv g.clear_line_to_cursor ∧
   GridInv g.clear_line_from_cursor ∧
   GridInv g.clear_to_cursor ∧
   GridInv g.clear_from_cursor ∧
   GridInv g.clear_all ∧
   GridInv (g.scroll_up n) ∧
   GridInv g.line_feed ∧
   GridInv (g.set_cursor_pos x y)) ∧
  ((g.lines.drop g.scrollback_len).length = g.rows ∧
   (∀ yy r, g.visible_row yy = some r → r.cells.length = g.cols) ∧
   g.scrollback_len ≤ g.scrollback_capacity)

/-- Witness grid for C6: a freshly built 3×2 grid with capacity 1. -/
def c6grid : ScreenGrid := mkGrid 3 2 1 termFg termBg

/-- A parse step that leaves the performer-visible state unchanged,
used to instantiate the abstract `vte::Parser::advance` in witnesses. -/
def idAdvance : Unit → PerfShared → List Nat → Unit × PerfShared :=
  fun p sh _ => (p, sh)

/-- Witness terminal state for C10: Normal screen active, dirty flag
down, viewport scrolled 5 lines into history. -/
def c10term : TerminalState Unit :=
  { shared :=
      { normal_grid := mkGrid 2 2 4 termFg termBg
        alternate_grid := mkGrid 2 2 0 termFg termBg
        active_screen := ActiveScreen.Normal
        attrs := { fg := termFg, bg := termBg, flags := CellFlags.emptyFlags }
        cursor_visible := true
        current_link_id := none
        links := []
        next_link_id := 1 }
    parser := ()
    scroll_offset := 5
    is_dirty := false }

/-!
Helper lemmas about the list primitives used by the embedding.
-/

theorem length_listModify (f : α → α) (n : Nat) (l : List α) :
    (listModify f n l).length = l.length := by
  induction l generalizing n with
  | nil => cases n <;> rfl
  | cons a as ih =>
    cases n with
    | zero => rfl
    | succ m => simpa [listModify] using ih m

theorem mem_listModify (f : α → α) (n : Nat) (l : List α) (x : α)
    (hx : x ∈ listModify f n l) : x ∈ l ∨ ∃ y ∈ l, x = f y := by
  induction l generalizing n with
  | nil => cases n <;> simp [listModify] at hx
  | cons a as ih =>
    cases n with
    | zero =>
      rcases List.mem_cons.mp hx with h | h
      · exact Or.inr ⟨a, List.mem_cons_self a as, h⟩
      · exact Or.inl (List.mem_cons_of_mem a h)
    | succ m =>
      rcases List.mem_cons.mp hx with h | h
      · exact Or.inl (h ▸ List.mem_cons_self a as)
      · rcases ih m h with h' | ⟨y, hy, hxy⟩
        · exact Or.inl (List.mem_cons_of_mem a h')
        · exact Or.inr ⟨y, List.mem_cons_of_mem a hy, hxy⟩

theorem length_insertAt (a : α) (n : Nat) (l : List α) :
    (insertAt a n l).length = l.length + 1 := by
  induction l generalizing n with
  | nil => cases n <;> rfl
  | cons x xs ih =>
    cases n with
    | zero => rfl
    | succ m => simpa [insertAt] using ih m

theorem mem_insertAt (a : α) (n : Nat) (l : List α) (x : α)
    (hx : x ∈ insertAt a n l) : x = a ∨ x ∈ l := by
  induction l generalizing n with
  | nil =>
    cases n with
    | zero => simpa [insertAt] using hx
    | succ m => simpa [insertAt] using hx
  | cons y ys ih =>
    cases n with
    | zero =>
      rcases List.mem_cons.mp hx with h | h
      · exact Or.inl h
      · exact Or.inr h
    | succ m =>
      rcases List.mem_cons.mp hx with h | h
      · exact Or.inr (h ▸ List.mem_cons_self y ys)
      · rcases ih m h with h' | h'
        · exact Or.inl h'
        · exact Or.inr (List.mem_cons_of_mem y h')

theorem length_eraseAt (n : Nat) (l : List α) (hn : n < l.length) :
    (eraseAt n l).length = l.length - 1 := by
  induction l generalizing n with
  | nil => simp at hn
  | cons x xs ih =>
    cases n with
    | zero => rfl
    | succ m =>
      have hm : m < xs.length := by simpa using hn
      have hx : 1 ≤ xs.length := Nat.one_le_iff_ne_zero.mpr (by omega)
      simp only [eraseAt, List.length_cons]
      rw [ih m hm]
      omega

theorem mem_eraseAt (n : Nat) (l : List α) (x : α)
    (hx : x ∈ eraseAt n l) : x ∈ l := by
  induction l generalizing n with
  | nil => cases n <;> simp [eraseAt] at hx
  | cons y ys ih =>
    cases n with
    | zero => exact List.mem_cons_of_mem y hx
    | succ m =>
      rcases List.mem_cons.mp hx with h | h
      · exact h ▸ List.mem_cons_self y ys
      · exact List.mem_cons_of_mem y (ih m h)

theorem foldl_preserves {α β : Type _} (P : α → Prop) (step : α → β → α)
    (hstep : ∀ a b, P a → P (step a b)) :
    ∀ (l : List β) (a : α), P a → P (l.foldl step a) := by
  intro l
  induction l with
  | nil => intro a ha; exact ha
  | cons b bs ih => intro a ha; exact ih (step a b) (hstep a b ha)

theorem rowsOk_listModify {c : Nat} {f : Row → Row} {n : Nat} {l : List Row}
    (h : RowsOk c l)
    (hf : ∀ r, r.cells.length = c → (f r).cells.length = c) :
    RowsOk c (listModify f n l) := by
  intro r hr
  rcases mem_listModify f n l r hr with h' | ⟨y, hy, rfl⟩
  · exact h r h'
  · exact hf y (h y hy)

theorem gridInv_modifyRow (g : ScreenGrid) (y : Nat) (f : Row → Row)
    (hf : ∀ r, r.cells.length = g.cols → (f r).cells.length = g.cols)
    (h : GridInv g) : GridInv (g.modifyRow y f) := by
  obtain ⟨h1, h2, h3, h4, h5⟩ := h
  refine ⟨rowsOk_listModify h1 hf, ?_, ?_, h4, h5⟩
  · simpa [ScreenGrid.modifyRow, length_listModify] using h2
  · simpa [ScreenGrid.modifyRow, length_listModify] using h3

theorem gridInv_push_scrollback (g : ScreenGrid) (row : Row)
    (h : GridInv g) (hrow : row.cells.length = g.cols) :
    GridInv (g.push_scrollback row) := by
  obtain ⟨h1, h2, h3, h4, h5⟩ := h
  refine ⟨?_, ?_, ?_, h4, h5⟩
  · intro r hr
    have hr' : r ∈ row :: g.lines := List.drop_subset _ _ hr
    rcases List.mem_cons.mp hr' with rfl | h'
    · exact hrow
    · exact h1 r h'
  · simp only [ScreenGrid.push_scrollback, List.length_drop, List.length_cons]
    omega
  · simp only [ScreenGrid.push_scrollback, List.length_drop, List.length_cons]
    omega

theorem gridInv_foldl_push (rs : List Row) (g : ScreenGrid)
    (h : GridInv g) (hrs : ∀ r ∈ rs, r.cells.length = g.cols) :
    GridInv (rs.foldl (fun acc row => acc.push_scrollback row) g) := by
  induction rs generalizing g with
  | nil => exact h
  | cons r rs ih =>
    refine ih (g.push_scrollback r)
      (gridInv_push_scrollback g r h (hrs r (List.mem_cons_self r rs))) ?_
    intro r' hr'
    exact hrs r' (List.mem_cons_of_mem r hr')

theorem ScreenGrid.scrollRemoveLoop_spec (rows top cap c : Nat) :
    ∀ (n : Nat) (lines acc : List Row),
      top < rows → top + n ≤ lines.length →
      (ScreenGrid.scrollRemoveLoop rows top cap n (lines, acc)).1.length = lines.length - n ∧
      (RowsOk c lines →
        RowsOk c (ScreenGrid.scrollRemoveLoop rows top cap n (lines, acc)).1) ∧
      (RowsOk c lines → RowsOk c acc →
        RowsOk c (ScreenGrid.scrollRemoveLoop rows top cap n (lines, acc)).2) := by
  intro n
  induction n with
  | zero =>
    intro lines acc _ _
    exact ⟨by simp [ScreenGrid.scrollRemoveLoop], fun h => h, fun _ h => h⟩
  | succ m ih =>
    intro lines acc htop hlen
    have hidx : (lines.length - rows) + top < lines.length := by omega
    have hstep :
        ScreenGrid.scrollRemoveLoop rows top cap (m + 1) (lines, acc) =
        ScreenGrid.scrollRemoveLoop rows top cap m
          (eraseAt ((lines.length - rows) + top) lines,
           if 0 < cap then
             acc ++ [lines.get ⟨(lines.length - rows) + top, hidx⟩]
           else acc) := by
      simp only [ScreenGrid.scrollRemoveLoop, dif_pos hidx]
    have hlen' : (eraseAt ((lines.length - rows) + top) lines).length
        = lines.length - 1 := length_eraseAt _ _ hidx
    have hrec := ih (eraseAt ((lines.length - rows) + top) lines)
      (if 0 < cap then
         acc ++ [lines.get ⟨(lines.length - rows) + top, hidx⟩]
       else acc) htop (by omega)
    obtain ⟨r1, r2, r3⟩ := hrec
    rw [hstep]
    refine ⟨by rw [r1, hlen']; omega, ?_, ?_⟩
    · intro hok
      exact r2 (fun r hr => hok r (mem_eraseAt _ _ r hr))
    · intro hok hacc
      refine r3 (fun r hr => hok r (mem_eraseAt _ _ r hr)) ?_
      by_cases hc : 0 < cap
      · simp only [if_pos hc]
        intro r hr
        rcases List.mem_append.mp hr with h' | h'
        · exact hacc r h'
        · have : r = lines.get ⟨(lines.length - rows) + top, hidx⟩ := by
            simpa using h'
          exact this ▸ hok _ (List.get_mem lines _ hidx)
      · simpa [hc] using hacc

theorem ScreenGrid.scrollInsertLoop_spec (rows bottom : Nat) (blank : Row) (c : Nat)
    (hblank : blank.cells.length = c) :
    ∀ (n : Nat) (lines : List Row),
      (ScreenGrid.scrollInsertLoop rows bottom blank n lines).length = lines.length + n ∧
      (RowsOk c lines →
        RowsOk c (ScreenGrid.scrollInsertLoop rows bottom blank n lines)) := by
  intro n
  induction n with
  | zero =>
    intro lines
    exact ⟨by simp [ScreenGrid.scrollInsertLoop], fun h => h⟩
  | succ m ih =>
    intro lines
    have hstep :
        ScreenGrid.scrollInsertLoop rows bottom blank (m + 1) lines =
        ScreenGrid.scrollInsertLoop rows bottom blank m
          (insertAt blank
            (min ((lines.length - rows) + bottom + 1) lines.length) lines) := by
      simp only [ScreenGrid.scrollInsertLoop]
    obtain ⟨r1, r2⟩ := ih (insertAt blank
      (min ((lines.length - rows) + bottom + 1) lines.length) lines)
    rw [hstep]
    refine ⟨by rw [r1, length_insertAt]; omega, ?_⟩
    intro hok
    refine r2 ?_
    intro r hr
    rcases mem_insertAt _ _ _ r hr with rfl | h'
    · exact hblank
    · exact hok r h'

theorem rowsOk_nil (c : Nat) : RowsOk c [] :=
  fun r hr => absurd hr (List.not_mem_nil r)

theorem gridInv_scroll_up (g : ScreenGrid) (n : Nat) (h : GridInv g) :
    GridInv (g.scroll_up n) := by
  obtain ⟨h1, h2, h3, h4, h5⟩ := h
  simp only [ScreenGrid.scroll_up]
  set m := min n ((g.scroll_bottom - g.scroll_top) + 1) with hm
  have hminle : m ≤ (g.scroll_bottom - g.scroll_top) + 1 := Nat.min_le_right _ _
  by_cases hm0 : m = 0
  · rw [if_pos hm0]
    exact ⟨h1, h2, h3, h4, h5⟩
  · rw [if_neg hm0]
    have htop : g.scroll_top < g.rows := by omega
    have hcond : g.scroll_top + m ≤ g.lines.length := by omega
    obtain ⟨hr1, hr2, hr3⟩ := ScreenGrid.scrollRemoveLoop_spec g.rows
      g.scroll_top g.scrollback_capacity g.cols m g.lines [] htop hcond
    have hblank : (blank_row g.cols g.default_fg g.default_bg).cells.length
        = g.cols := by simp [blank_row]
    set rm := ScreenGrid.scrollRemoveLoop g.rows g.scroll_top
      g.scrollback_capacity m (g.lines, []) with hrm
    obtain ⟨hi1, hi2⟩ := ScreenGrid.scrollInsertLoop_spec g.rows
      g.scroll_bottom (blank_row g.cols g.default_fg g.default_bg) g.cols
      hblank m rm.1
    set L2 := ScreenGrid.scrollInsertLoop g.rows g.scroll_bottom
      (blank_row g.cols g.default_fg g.default_bg) m rm.1 with hL2
    have hg2 : GridInv { g with lines := L2 } := by
      refine ⟨hi2 (hr2 h1), ?_, ?_, h4, h5⟩
      · show g.rows ≤ L2.length
        rw [hL2, hi1, hr1]; omega
      · show L2.length ≤ g.rows + g.scrollback_capacity
        rw [hL2, hi1, hr1]; omega
    exact gridInv_foldl_push _ _ hg2 (hr3 h1 (rowsOk_nil g.cols))

theorem gridInv_line_feed (g : ScreenGrid) (h : GridInv g) :
    GridInv g.line_feed := by
  unfold ScreenGrid.line_feed
  split_ifs with h1 h2
  · exact h
  · exact gridInv_scroll_up g 1 h
  · exact h

theorem gridInv_advance_cursor (g : ScreenGrid) (h : GridInv g) :
    GridInv g.advance_cursor := by
  unfold ScreenGrid.advance_cursor
  split_ifs <;> exact h

theorem gridInv_put_char_ex (g : ScreenGrid) (ch : Char) (fg bg : Rgb)
    (fl : CellFlags) (lk : Option Nat) (h : GridInv g) :
    GridInv (g.put_char_ex ch fg bg fl lk) := by
  simp only [ScreenGrid.put_char_ex]
  apply gridInv_advance_cursor
  split_ifs with h1 h2 h3
  · apply gridInv_modifyRow
    · intro r hr
      simpa [List.length_set] using hr
    · exact gridInv_line_feed g h
  · exact gridInv_line_feed g h
  · apply gridInv_modifyRow
    · intro r hr
      simpa [List.length_set] using hr
    · exact h
  · exact h

theorem gridInv_set_cursor_pos (g : ScreenGrid) (x y : Nat)
    (h : GridInv g) : GridInv (g.set_cursor_pos x y) := by
  simp only [ScreenGrid.set_cursor_pos]
  apply gridInv_modifyRow
  · intro r hr
    exact hr
  · exact gridInv_modifyRow _ _ _ (fun r hr => hr) h

theorem gridInv_clear_line (g : ScreenGrid) (h : GridInv g) :
    GridInv g.clear_line := by
  simp only [ScreenGrid.clear_line]
  apply gridInv_modifyRow
  · intro r hr
    simp [blank_row]
  · exact h

theorem gridInv_clear_line_to_cursor (g : ScreenGrid) (h : GridInv g) :
    GridInv g.clear_line_to_cursor := by
  simp only [ScreenGrid.clear_line_to_cursor]
  apply gridInv_modifyRow
  · intro r hr
    refine foldl_preserves (fun (cs : List Cell) => cs.length = g.cols) _ ?_ _ _ hr
    intro cs i hcs
    split_ifs with hx
    · rw [List.length_set]; exact hcs
    · exact hcs
  · exact h

theorem gridInv_clear_line_from_cursor (g : ScreenGrid) (h : GridInv g) :
    GridInv g.clear_line_from_cursor := by
  simp only [ScreenGrid.clear_line_from_cursor]
  apply gridInv_modifyRow
  · intro r hr
    refine foldl_preserves (fun (cs : List Cell) => cs.length = g.cols) _ ?_ _ _ hr
    intro cs i hcs
    rw [List.length_set]; exact hcs
  · exact h

theorem gridInv_blank_fold (g : ScreenGrid) (ys : List Nat) (h : GridInv g) :
    GridInv (ys.foldl
      (fun acc y => acc.modifyRow y fun _ =>
        blank_row acc.cols acc.default_fg acc.default_bg) g) := by
  refine foldl_preserves GridInv _ ?_ ys g h
  intro acc y hacc
  apply gridInv_modifyRow
  · intro r hr
    simp [blank_row]
  · exact hacc

theorem gridInv_clear_to_cursor (g : ScreenGrid) (h : GridInv g) :
    GridInv g.clear_to_cursor := by
  simp only [ScreenGrid.clear_to_cursor]
  exact gridInv_clear_line_to_cursor _ (gridInv_blank_fold _ _ h)

theorem gridInv_clear_from_cursor (g : ScreenGrid) (h : GridInv g) :
    GridInv g.clear_from_cursor := by
  simp only [ScreenGrid.clear_from_cursor]
  exact gridInv_blank_fold _ _ (gridInv_clear_line_from_cursor _ h)

theorem gridInv_clear_all (g : ScreenGrid) (h : GridInv g) :
    GridInv g.clear_all := by
  simp only [ScreenGrid.clear_all]
  exact gridInv_set_cursor_pos _ _ _ (gridInv_blank_fold _ _ h)

theorem gridInv_insert_chars (g : ScreenGrid) (n : Nat) (h : GridInv g) :
    GridInv (g.insert_chars n) := by
  simp only [ScreenGrid.insert_chars]
  apply gridInv_modifyRow
  · intro r hr
    refine foldl_preserves (fun (cs : List Cell) => cs.length = g.cols) _ ?_ _ _ hr
    intro cs i hcs
    split_ifs with hx
    · rw [List.length_take, length_insertAt, hcs]
      omega
    · exact hcs
  · exact h

theorem gridInv_delete_chars (g : ScreenGrid) (n : Nat) (h : GridInv g) :
    GridInv (g.delete_chars n) := by
  simp only [ScreenGrid.delete_chars]
  apply gridInv_modifyRow
  · intro r hr
    have hrem : ((List.range n).foldl
        (fun cs _ => if g.cur_x < cs.length then eraseAt g.cur_x cs else cs)
        r.cells).length ≤ g.cols := by
      refine foldl_preserves (fun (cs : List Cell) => cs.length ≤ g.cols) _ ?_ _ _
        (le_of_eq hr)
      intro cs i hcs
      split_ifs with hx
      · rw [length_eraseAt _ _ hx]
        omega
      · exact hcs
    simp only [List.length_append, List.length_replicate]
    omega
  · exact h

theorem gridInv_splice (g : ScreenGrid) (start endI : Nat) (filled : List Row)
    (h : GridInv g) (hse : start ≤ endI) (hend : endI < g.lines.length)
    (hlen : filled.length = endI + 1 - start)
    (hok : RowsOk g.cols filled) :
    GridInv { g with
      lines := g.lines.take start ++ filled ++ g.lines.drop (endI + 1)
      full_redraw_needed := true } := by
  obtain ⟨h1, h2, h3, h4, h5⟩ := h
  refine ⟨?_, ?_, ?_, h4, h5⟩
  · intro r hr
    simp only [List.mem_append] at hr
    rcases hr with (hr | hr) | hr
    · exact h1 r (List.take_subset _ _ hr)
    · exact hok r hr
    · exact h1 r (List.drop_subset _ _ hr)
  · show g.rows ≤ (g.lines.take start ++ filled ++ g.lines.drop (endI + 1)).length
    simp only [List.length_append, List.length_take, List.length_drop, hlen]
    omega
  · show (g.lines.take start ++ filled ++ g.lines.drop (endI + 1)).length
      ≤ g.rows + g.scrollback_capacity
    simp only [List.length_append, List.length_take, List.length_drop, hlen]
    omega

theorem gridInv_insert_lines (g : ScreenGrid) (n : Nat) (h : GridInv g) :
    GridInv (g.insert_lines n) := by
  obtain ⟨h1, h2, h3, h4, h5⟩ := h
  simp only [ScreenGrid.insert_lines, ScreenGrid.scrollback_len]
  split_ifs with hy hn hguard
  · exact ⟨h1, h2, h3, h4, h5⟩
  · exact ⟨h1, h2, h3, h4, h5⟩
  · exact ⟨h1, h2, h3, h4, h5⟩
  · push_neg at hy hguard
    obtain ⟨hy1, hy2⟩ := hy
    set m := min n (g.scroll_bottom - g.cur_y + 1) with hmdef
    have hm1 : m ≤ g.scroll_bottom - g.cur_y + 1 := Nat.min_le_right _ _
    set sb := g.lines.length - g.rows with hsbdef
    have hse : sb + g.cur_y ≤ sb + g.scroll_bottom := by omega
    have hreglen :
        ((g.lines.drop (sb + g.cur_y)).take
          ((sb + g.scroll_bottom) + 1 - (sb + g.cur_y))).length
        = g.scroll_bottom - g.cur_y + 1 := by
      simp only [List.length_take, List.length_drop]
      omega
    apply gridInv_splice _ _ _ _ ⟨h1, h2, h3, h4, h5⟩ hse hguard
    · simp only [List.length_append, List.length_replicate, List.length_take,
        List.length_drop, hreglen]
      omega
    · intro r hr
      simp only [List.mem_append] at hr
      rcases hr with hr | hr
      · rw [List.eq_of_mem_replicate hr]
        simp [blank_row]
      · have hr2 : r ∈ (g.lines.drop (sb + g.cur_y)).take
            ((sb + g.scroll_bottom) + 1 - (sb + g.cur_y)) := by
          have := List.drop_subset _ _ hr
          simp only [List.mem_append] at this
          rcases this with hx | hx
          · exact List.drop_subset _ _ hx
          · exact List.take_subset _ _ hx
        exact h1 r (List.drop_subset _ _ (List.take_subset _ _ hr2))

theorem gridInv_delete_lines (g : ScreenGrid) (n : Nat) (h : GridInv g) :
    GridInv (g.delete_lines n) := by
  obtain ⟨h1, h2, h3, h4, h5⟩ := h
  simp only [ScreenGrid.delete_lines, ScreenGrid.scrollback_len]
  split_ifs with hy hn hguard
  · exact ⟨h1, h2, h3, h4, h5⟩
  · exact ⟨h1, h2, h3, h4, h5⟩
  · exact ⟨h1, h2, h3, h4, h5⟩
  · push_neg at hy hguard
    obtain ⟨hy1, hy2⟩ := hy
    set m := min n (g.scroll_bottom - g.cur_y + 1) with hmdef
    have hm1 : m ≤ g.scroll_bottom - g.cur_y + 1 := Nat.min_le_right _ _
    set sb := g.lines.length - g.rows with hsbdef
    have hse : sb + g.cur_y ≤ sb + g.scroll_bottom := by omega
    set region := (g.lines.drop (sb + g.cur_y)).take
      ((sb + g.scroll_bottom) + 1 - (sb + g.cur_y)) with hregdef
    have hreglen : region.length = g.scroll_bottom - g.cur_y + 1 := by
      rw [hregdef]
      simp only [List.length_take, List.length_drop]
      omega
    apply gridInv_splice _ _ _ _ ⟨h1, h2, h3, h4, h5⟩ hse hguard
    · simp only [List.length_append, List.length_replicate, List.length_take,
        List.length_drop, hreglen]
      omega
    · intro r hr
      simp only [List.mem_append] at hr
      have hregsub : ∀ x, x ∈ region → x ∈ g.lines := by
        intro x hx
        exact List.drop_subset _ _ (List.take_subset _ _ (hregdef ▸ hx))
      rcases hr with hr | hr
      · have hr2 := List.take_subset _ _ hr
        simp only [List.mem_append] at hr2
        rcases hr2 with hx | hx
        · exact h1 r (hregsub r (List.drop_subset _ _ hx))
        · exact h1 r (hregsub r (List.take_subset _ _ hx))
      · rw [List.eq_of_mem_replicate hr]
        simp [blank_row]

theorem gridInv_spec_props (g : ScreenGrid) (h : GridInv g) :
    (g.lines.drop g.scrollback_len).length = g.rows ∧
    (∀ yy r, g.visible_row yy = some r → r.cells.length = g.cols) ∧
    g.scrollback_len ≤ g.scrollback_capacity := by
  obtain ⟨h1, h2, h3, _, _⟩ := h
  refine ⟨?_, ?_, ?_⟩
  · simp only [List.length_drop, ScreenGrid.scrollback_len]
    omega
  · intro yy r hr
    exact h1 r (List.get?_mem hr)
  · simp only [ScreenGrid.scrollback_len]
    omega

/-- C6: from any grid state satisfying the spec's invariant, every public
grid operation — `put_char_ex`, `insert_chars`, `delete_chars`,
`insert_lines`, `delete_lines`, the six erase operations, `scroll_up`,
`line_feed` and `set_cursor_pos` — preserves it, and the invariant gives
the three §8 properties: the viewport slice is exactly `rows` rows, every
visible row has exactly `cols` cells, and `scrollback_len ≤
scrollback_capacity`. -/
theorem c6_grid_ops_preserve_invariant (g : ScreenGrid) (h : GridInv g)
    (ch : Char) (cfg cbg : Rgb) (fl : CellFlags) (lk : Option Nat)
    (n x y : Nat) : GridOpsOk g ch cfg cbg fl lk n x y := by
  refine ⟨⟨?_, ?_, ?_, ?_, ?_, ?_, ?_, ?_, ?_, ?_, ?_, ?_, ?_, ?_⟩,
    gridInv_spec_props g h⟩
  · exact gridInv_put_char_ex g ch cfg cbg fl lk h
  · exact gridInv_insert_chars g n h
  · exact gridInv_delete_chars g n h
  · exact gridInv_insert_lines g n h
  · exact gridInv_delete_lines g n h
  · exact gridInv_clear_line g h
  · exact gridInv_clear_line_to_cursor g h
  · exact gridInv_clear_line_from_cursor g h
  · exact gridInv_clear_to_cursor g h
  · exact gridInv_clear_from_cursor g h
  · exact gridInv_clear_all g h
  · exact gridInv_scroll_up g n h
  · exact gridInv_line_feed g h
  · exact gridInv_set_cursor_pos g x y h

/-- Witness for C6 at a concrete freshly-built 3×2 grid. -/
theorem c6_grid_ops_preserve_invariant_witness :
    GridInv c6grid ∧
    GridOpsOk c6grid 'A' termFg termBg CellFlags.emptyFlags none 1 0 1 :=
  ⟨by decide,
   c6_grid_ops_preserve_invariant c6grid (by decide) 'A' termFg termBg
     CellFlags.emptyFlags none 1 0 1⟩

set_option maxRecDepth 10000 in
/-- C1: the code_bug evaluation.  Feeding 12 newline-terminated lines
`A`..`L` into a 10×5 grid with scrollback capacity 3 leaves the FIRST
three scrolled-off lines in the scrollback, newest-at-front
(`C`, `B`, `A` top-to-bottom), not the three most recently scrolled-off
lines (`F`, `G`, `H`) in oldest-first order as the claim states:
`push_scrollback` pushes and evicts at the same end of the deque, so
once capacity is reached every newly scrolled-off row is immediately
evicted again. -/
theorem c1_scrollback_keeps_first_rows_reversed :
    c1grid.scrollback_len = 3 ∧
    (c1grid.lines.take 3).map rowText =
      [('C' :: List.replicate 9 ' '), ('B' :: List.replicate 9 ' '),
       ('A' :: List.replicate 9 ' ')] ∧
    (c1grid.lines.drop 3).map rowText =
      [('I' :: List.replicate 9 ' '), ('J' :: List.replicate 9 ' '),
       ('K' :: List.replicate 9 ' '), ('L' :: List.replicate 9 ' '),
       List.replicate 10 ' '] := by decide

/-- C2: the code_bug evaluation.  Dispatching CSI J or CSI K with
parameter 1 leaves every grid unchanged (the source's arm is an empty
TODO), while the grid operations `clear_to_cursor` and
`clear_line_to_cursor` the claim says they invoke do erase the `A` at
(0,0) on a concrete grid with the cursor at (1,0). -/
theorem c2_ed1_el1_are_noops :
    (∀ g : ScreenGrid, VtePerformer.csiED 1 g = g) ∧
    (∀ g : ScreenGrid, VtePerformer.csiEL 1 g = g) ∧
    (gA4.visible_row 0).map rowText = some ['A', ' ', ' ', ' '] ∧
    (gA4.clear_to_cursor.visible_row 0).map rowText
      = some [' ', ' ', ' ', ' '] ∧
    (gA4.clear_line_to_cursor.visible_row 0).map rowText
      = some [' ', ' ', ' ', ' '] :=
  ⟨fun _ => rfl, fun _ => rfl, by decide, by decide, by decide⟩

/-- C3: the code_bug evaluation.  After printing exactly `cols`
characters (`ABCD` on a 4-column grid) the deferred-wrap latch is set;
executing CR (0x0D) sets `cur_x` to 0 but leaves `deferred_wrap = true`,
contrary to the claim that CR clears the latch.  (The claim's observable
consequence still holds: the next character `X` lands at column 0 of the
same row, because `put_char_ex`'s deferred path absorbs the line feed.) -/
theorem c3_cr_leaves_deferred_wrap_set :
    gABCD.deferred_wrap = true ∧
    gABCDcr.cur_x = 0 ∧
    gABCDcr.deferred_wrap = true ∧
    gABCDcrX.cur_y = 0 ∧
    (gABCDcrX.visible_row 0).map rowText = some ['X', 'B', 'C', 'D'] := by
  decide

/-- C4: the code_bug evaluation.  On a 4-column grid, printing `ABCD`
sets the latch as the claim states, but printing the further character
`E` does NOT wrap: `line_feed` sees the latch still set and returns
without moving, so `E` overwrites column 0 of the SAME row (row 0 becomes
`EBCD`, row 1 stays blank, `cur_y` stays 0), contradicting the claim
that one line feed occurs and `E` lands at column 0 of the next row. -/
theorem c4_wrap_commit_overwrites_same_row :
    (gABCD.visible_row 0).map rowText = some ['A', 'B', 'C', 'D'] ∧
    gABCD.cur_x = 3 ∧ gABCD.deferred_wrap = true ∧
    (gABCDE.visible_row 0).map rowText = some ['E', 'B', 'C', 'D'] ∧
    (gABCDE.visible_row 1).map rowText = some [' ', ' ', ' ', ' '] ∧
    gABCDE.cur_y = 0 ∧ gABCDE.cur_x = 1 ∧
    gABCDE.deferred_wrap = false := by decide

/-- C5: the code_bug evaluation.  Starting from a fully clean 2×3 grid,
dispatching CSI B (CUD 1) moves `cur_y` from 0 to 1 and dispatching
CSI A (CUU 1) moves it back, yet neither the row left nor the row
entered is marked dirty, contradicting the claim that every cursor
motion changing `cur_y` marks both. -/
theorem c5_cuu_cud_mark_no_rows_dirty :
    c5cud.cur_y = 1 ∧
    (c5cud.visible_row 0).map Row.is_dirty = some false ∧
    (c5cud.visible_row 1).map Row.is_dirty = some false ∧
    (VtePerformer.csiCUU 1 c5cud).cur_y = 0 ∧
    ((VtePerformer.csiCUU 1 c5cud).visible_row 0).map Row.is_dirty
      = some false ∧
    ((VtePerformer.csiCUU 1 c5cud).visible_row 1).map Row.is_dirty
      = some false := by decide

/-- C7: the code_bug evaluation.  `resize(0, 5)` on a 10×5 grid holding
`A` at (0,0) is NOT a no-op: the guard only returns early when both
dimensions already match, so the grid is rebuilt as 5 rows of 0 cells
with `cols = 0`, destroying the prior content the claim says is
retained. -/
theorem c7_resize_to_zero_clears_grid :
    c7grid.cols = 10 ∧ c7grid.rows = 5 ∧
    (c7grid.visible_row 0).map rowText
      = some ('A' :: List.replicate 9 ' ') ∧
    c7resized.cols = 0 ∧ c7resized.rows = 5 ∧
    c7resized.lines.map (fun r => r.cells.length) = [0, 0, 0, 0, 0] := by
  decide

/-- C8: the code_bug evaluation.  CUU, CUD, CUF, CUB, ICH, IL, DL and
DCH each treat an explicit parameter 0 as 1, but ECH (CSI X) does not:
with the cursor on an `A`, `CSI 0 X` leaves the cell untouched while
`CSI 1 X` blanks it, contradicting the claim for ECH. -/
theorem c8_ech_param_zero_differs_from_one :
    (∀ g : ScreenGrid, VtePerformer.csiCUU 0 g = VtePerformer.csiCUU 1 g) ∧
    (∀ g : ScreenGrid, VtePerformer.csiCUD 0 g = VtePerformer.csiCUD 1 g) ∧
    (∀ g : ScreenGrid, VtePerformer.csiCUF 0 g = VtePerformer.csiCUF 1 g) ∧
    (∀ g : ScreenGrid, VtePerformer.csiCUB 0 g = VtePerformer.csiCUB 1 g) ∧
    (∀ g : ScreenGrid, VtePerformer.csiICH 0 g = VtePerformer.csiICH 1 g) ∧
    (∀ g : ScreenGrid, VtePerformer.csiIL 0 g = VtePerformer.csiIL 1 g) ∧
    (∀ g : ScreenGrid, VtePerformer.csiDL 0 g = VtePerformer.csiDL 1 g) ∧
    (∀ g : ScreenGrid, VtePerformer.csiDCH 0 g = VtePerformer.csiDCH 1 g) ∧
    ((VtePerformer.csiECH termFg termBg none 0 c8grid).visible_row 0).map
      rowText = some ['A', ' ', ' ', ' '] ∧
    ((VtePerformer.csiECH termFg termBg none 1 c8grid).visible_row 0).map
      rowText = some [' ', ' ', ' ', ' '] :=
  ⟨fun _ => rfl, fun _ => rfl, fun _ => rfl, fun _ => rfl, fun _ => rfl,
   fun _ => rfl, fun _ => rfl, fun _ => rfl, by decide, by decide⟩

theorem buildRowBgsFrom_length (cw yp : Nat) (cv : Bool) (cx : Nat) :
    ∀ (cells : List Cell) (x0 : Nat),
      (buildRowBgsFrom cw yp cv cx x0 cells).length = cells.length := by
  intro cells
  induction cells with
  | nil => intro x0; rfl
  | cons c cs ih =>
    intro x0
    simp only [buildRowBgsFrom, List.length_cons, ih]

theorem buildRowBgsFrom_get? (cw yp : Nat) (cv : Bool) (cx : Nat) :
    ∀ (cells : List Cell) (x0 i : Nat),
      (buildRowBgsFrom cw yp cv cx x0 cells).get? i =
        (cells.get? i).map fun c =>
          { pos_x := (x0 + i) * cw
            pos_y := yp
            color := if cv && (x0 + i) = cx then c.fg else c.bg
            alpha := 255 } := by
  intro cells
  induction cells with
  | nil => intro x0 i; rfl
  | cons c cs ih =>
    intro x0 i
    cases i with
    | zero => simp [buildRowBgsFrom]
    | succ j =>
      have := ih (x0 + 1) j
      simp only [buildRowBgsFrom, List.get?_cons_succ, this]
      have harith : x0 + 1 + j = x0 + (j + 1) := by omega
      rw [harith]

/-- C9 counterexample: a single cell whose `bg` equals the configured
default background still emits exactly one `BgInstance` (carrying that
default background color) on the cache-miss path — the claim says such a
cell contributes none. -/
theorem c9_default_bg_cell_emits_instance :
    (buildRowBgs 8 0 false 0 [c9cell]).length = 1 ∧
    buildRowBgs 8 0 false 0 [c9cell] =
      [{ pos_x := 0, pos_y := 0, color := termBg, alpha := 255 }] := by
  decide

/-- C9 amended: on a cache miss, every cell of the row emits exactly one
`BgInstance` — the i-th at `x = i·cell_w` with the cell's `bg`, or the
cell's `fg` when the cell is the cursor cell (reverse-video cursor, no
extra quad) — with no suppression of cells whose bg equals the
configured default background. -/
theorem c9_one_bg_instance_per_cell (cell_w y_pos : Nat) (cvis : Bool)
    (cur_x : Nat) (cells : List Cell) (i : Nat) :
    (buildRowBgs cell_w y_pos cvis cur_x cells).length = cells.length ∧
    (buildRowBgs cell_w y_pos cvis cur_x cells).get? i =
      (cells.get? i).map fun c =>
        { pos_x := i * cell_w
          pos_y := y_pos
          color := if cvis && i = cur_x then c.fg else c.bg
          alpha := 255 } := by
  refine ⟨buildRowBgsFrom_length cell_w y_pos cvis cur_x cells 0, ?_⟩
  have := buildRowBgsFrom_get? cell_w y_pos cvis cur_x cells 0 i
  simpa using this

/-- C10: `feed` on a non-empty byte slice sets the global dirty flag and,
when the Normal screen is active on entry, resets `scroll_offset` to 0 —
both before and regardless of the parse (the `advance` step is arbitrary
and cannot reach these fields); `feed` of an empty slice changes
nothing. -/
theorem c10_feed_sets_dirty_and_resets_scroll {P : Type}
    (advance : P → PerfShared → List Nat → P × PerfShared)
    (st : TerminalState P) (b : Nat) (bs : List Nat) :
    (TerminalState.feed advance st (b :: bs)).is_dirty = true ∧
    (st.shared.active_screen = ActiveScreen.Normal →
      (TerminalState.feed advance st (b :: bs)).scroll_offset = 0) ∧
    TerminalState.feed advance st [] = st := by
  refine ⟨rfl, ?_, rfl⟩
  intro hn
  simp [TerminalState.feed, hn]

/-- Witness for C10 at a concrete Normal-screen terminal state and the
identity parse step. -/
theorem c10_feed_sets_dirty_and_resets_scroll_witness :
    (TerminalState.feed idAdvance c10term [65]).is_dirty = true ∧
    (TerminalState.feed idAdvance c10term [65]).scroll_offset = 0 :=
  ⟨(c10_feed_sets_dirty_and_resets_scroll idAdvance c10term 65 []).1,
   (c10_feed_sets_dirty_and_resets_scroll idAdvance c10term 65 []).2.1 rfl⟩
